import Mathlib

/-!
Shallow embedding of the sequential batch-transfer orchestrator
(src/hooks/useERC721MultiTransfer.ts).

The React hook's state cells (useState) and refs (useRef) are gathered into
one record, HookState.  The wagmi useWriteContract substate (data, isPending,
error) is the WriteState field.  Each operation of the hook becomes a pure
function on HookState; operations that talk to the outside world additionally
return a ghost log of what they emitted (a signing request, a started
confirmation watch).  JavaScript out-of-bounds indexing (queue[i] being
undefined) is modelled with Option.
-/

namespace NftTransfer

/-- Status of a transfer record: "pending" | "success" | "failed". -/
inductive TxStatus where
  | pending
  | success
  | failed
deriving DecidableEq, Repr, BEq

/-- TransferResult record: { tokenId, hash, status }.  tokenId is Option
because the source reads queue[currentIndex], which is undefined when the
index is out of bounds. -/
structure TransferResult where
  tokenId : Option Nat
  hash : String
  status : TxStatus
deriving DecidableEq, Repr

/-- Session parameters stored by startTransfer: { contractAddress, to, from }.
The source's field name from is a Lean keyword, rendered fromAddr. -/
structure SessionParams where
  contractAddress : String
  toAddr : String
  fromAddr : String
deriving DecidableEq, Repr

/-- Argument record of startTransfer: { contractAddress, to, tokenIds }. -/
structure ERC721MultiTransferParams where
  contractAddress : String
  toAddr : String
  tokenIds : List Nat
deriving DecidableEq, Repr

/-- The useWriteContract substate consumed by the hook:
data (currentHash), isPending, error (writeError). -/
structure WriteState where
  data : Option String
  isPending : Bool
  error : Option String
deriving DecidableEq, Repr

/-- The idle write state; resetWrite returns the signer to it. -/
def idleWrite : WriteState := ⟨none, false, none⟩

/-- The whole state owned by one hook instance: the five useState cells,
the three refs, and the external signer substate. -/
structure HookState where
  queue : List Nat
  currentIndex : Nat
  isTransferring : Bool
  completedTransfers : List TransferResult
  transferParams : Option SessionParams
  processedHashes : List String
  lastExecutedIndex : Int
  isExecuting : Bool
  write : WriteState
deriving DecidableEq, Repr

/-- The state a freshly mounted hook starts in. -/
def initState : HookState :=
  { queue := []
    currentIndex := 0
    isTransferring := false
    completedTransfers := []
    transferParams := none
    processedHashes := []
    lastExecutedIndex := -1
    isExecuting := false
    write := idleWrite }

/-- totalCount = queue.length. -/
def totalCount (s : HookState) : Nat := s.queue.length

/-- currentTokenId = queue[currentIndex] (undefined when out of bounds). -/
def currentTokenId (s : HookState) : Option Nat := s.queue[s.currentIndex]?

/-- allTransfersSubmitted = currentIndex >= totalCount && totalCount > 0. -/
def allTransfersSubmitted (s : HookState) : Bool :=
  decide (s.currentIndex ≥ totalCount s) && decide (totalCount s > 0)

/-- allTransfersConfirmed = completedTransfers.length === totalCount &&
totalCount > 0 && completedTransfers.every(t => t.status === "success" ||
t.status === "failed"). -/
def allTransfersConfirmed (s : HookState) : Bool :=
  decide (s.completedTransfers.length = totalCount s) && decide (totalCount s > 0) &&
    s.completedTransfers.all
      (fun t => t.status == TxStatus.success || t.status == TxStatus.failed)

/-- isComplete = allTransfersConfirmed. -/
def isComplete (s : HookState) : Bool := allTransfersConfirmed s

/-- pendingConfirmations = completedTransfers.filter(t => t.status === "pending").length. -/
def pendingConfirmations (s : HookState) : Nat :=
  (s.completedTransfers.filter (fun t => t.status == TxStatus.pending)).length

/-- isConfirming = pendingConfirmations > 0. -/
def isConfirming (s : HookState) : Bool := decide (pendingConfirmations s > 0)

/-- The arguments of one writeContract call: safeTransferFrom(from, to, tokenId)
at a contract address. -/
structure SignRequest where
  address : String
  fromAddr : String
  toAddr : String
  tokenId : Option Nat
deriving DecidableEq, Repr

/-- executeCurrentTransfer: guarded dispatch of one signing request.
Returns the new state and the request issued, if any.  Guards in source
order: no params or index out of range; lastExecutedIndex already equals
currentIndex; isExecuting.  On dispatch the guard token is set to
currentIndex, isExecuting becomes true, and the external signer enters its
pending state (writeContract puts useWriteContract into isPending). -/
def executeCurrentTransfer (s : HookState) : HookState × Option SignRequest :=
  match s.transferParams with
  | none => (s, none)
  | some p =>
    if s.currentIndex ≥ s.queue.length then (s, none)
    else if s.lastExecutedIndex = (s.currentIndex : Int) then (s, none)
    else if s.isExecuting then (s, none)
    else
      ({ s with
          lastExecutedIndex := (s.currentIndex : Int)
          isExecuting := true
          write := { s.write with isPending := true } },
       some ⟨p.contractAddress, p.fromAddr, p.toAddr, s.queue[s.currentIndex]?⟩)

/-- startTransfer(params, from): rejects an empty tokenIds list, otherwise
resets the three refs and installs the fresh queue, cursor, records and
session params.  It does not touch the write substate. -/
def startTransfer (p : ERC721MultiTransferParams) (fromAddr : String)
    (s : HookState) : HookState :=
  if p.tokenIds.length = 0 then s
  else
    { s with
        processedHashes := []
        lastExecutedIndex := -1
        isExecuting := false
        queue := p.tokenIds
        currentIndex := 0
        isTransferring := true
        completedTransfers := []
        transferParams := some ⟨p.contractAddress, p.toAddr, fromAddr⟩ }

/-- The hash-arrival effect (lines 114-163): when a hash is present, the
session is transferring, the index is in range and the hash is previously
unseen, append a pending record for the current token, clear the in-flight
flag, start a confirmation watch (only when a public client exists),
advance the cursor, and reset the signer when more work remains.
Returns the new state and the list of watches started. -/
def onHashEffect (hasClient : Bool) (s : HookState) : HookState × List String :=
  match s.write.data with
  | none => (s, [])
  | some h =>
    if !s.isTransferring then (s, [])
    else if s.currentIndex ≥ s.queue.length then (s, [])
    else if h ∈ s.processedHashes then (s, [])
    else
      let tokenId := s.queue[s.currentIndex]?
      let nextIndex := s.currentIndex + 1
      ({ s with
          processedHashes := s.processedHashes ++ [h]
          isExecuting := false
          completedTransfers :=
            s.completedTransfers ++ [⟨tokenId, h, TxStatus.pending⟩]
          currentIndex := nextIndex
          write := if nextIndex < s.queue.length then idleWrite else s.write },
       if hasClient then [h] else [])

/-- The confirmation callback of waitForTransactionReceipt: on success (ok)
or failure (not ok) for handle h, map over the records and rewrite the
status of every record whose hash equals h. -/
def applyConfirmation (h : String) (ok : Bool)
    (records : List TransferResult) : List TransferResult :=
  records.map (fun t =>
    if t.hash = h then
      { t with status := if ok then TxStatus.success else TxStatus.failed }
    else t)

/-- skip(): no-op unless transferring with a signer error outstanding;
otherwise append a failed record with the sentinel handle "0x" for the
current position, release the guards, advance the cursor, and reset the
signer only when the new index is still inside the queue. -/
def skip (s : HookState) : HookState :=
  if !s.isTransferring then s
  else
    match s.write.error with
    | none => s
    | some _ =>
      let tokenId := s.queue[s.currentIndex]?
      let records := s.completedTransfers ++ [⟨tokenId, "0x", TxStatus.failed⟩]
      let nextIndex := s.currentIndex + 1
      if nextIndex < s.queue.length then
        { s with
            completedTransfers := records
            isExecuting := false
            lastExecutedIndex := -1
            currentIndex := nextIndex
            write := idleWrite }
      else
        { s with
            completedTransfers := records
            isExecuting := false
            lastExecutedIndex := -1
            currentIndex := nextIndex }

/-- retry(): no-op unless transferring with a signer error outstanding;
otherwise reset the signer, release the guards, and re-run
executeCurrentTransfer for the same position (the setTimeout callback is
folded into the step). -/
def retry (s : HookState) : HookState × Option SignRequest :=
  if !s.isTransferring then (s, none)
  else
    match s.write.error with
    | none => (s, none)
    | some _ =>
      executeCurrentTransfer
        { s with
            write := idleWrite
            isExecuting := false
            lastExecutedIndex := -1 }

/-- reset(): unconditionally restore every cell, ref and the signer to the
initial state. -/
def reset (_ : HookState) : HookState := initState

/-- The completion effect (lines 180-184): when every record is terminal and
the full count is reached, drop the transferring flag. -/
def onDoneEffect (s : HookState) : HookState :=
  if allTransfersConfirmed s && s.isTransferring then
    { s with isTransferring := false }
  else s

/-- Events that drive a session after startTransfer: the scheduler invoking
executeCurrentTransfer, the external signer answering a pending request with
a handle or an error, the hash-arrival effect, skip, retry, a confirmation
callback, and the completion effect. -/
inductive Ev where
  | execute
  | signerIssue (h : String)
  | signerFail (e : String)
  | hashArrive (hasClient : Bool)
  | skipEv
  | retryEv
  | confirm (h : String) (ok : Bool)
  | doneCheck
deriving DecidableEq, Repr

/-- One step of the orchestrator.  Signer answers are only accepted while a
request is pending, matching useWriteContract's lifecycle. -/
def step (e : Ev) (s : HookState) : HookState :=
  match e with
  | .execute => (executeCurrentTransfer s).1
  | .signerIssue h =>
      if s.write.isPending then { s with write := ⟨some h, false, none⟩ } else s
  | .signerFail err =>
      if s.write.isPending then { s with write := ⟨none, false, some err⟩ } else s
  | .hashArrive c => (onHashEffect c s).1
  | .skipEv => skip s
  | .retryEv => (retry s).1
  | .confirm h ok =>
      { s with completedTransfers := applyConfirmation h ok s.completedTransfers }
  | .doneCheck => onDoneEffect s

/-- Run a list of events from a state. -/
def run (es : List Ev) (s : HookState) : HookState :=
  es.foldl (fun t e => step e t) s

/-- The cursor/records contract on a queue q, cursor k and record list recs:
the cursor never passes the end of the queue, one record exists per passed
position, and records sit in queue order (record i carries queue[i]). -/
def InvOn (q : List Nat) (k : Nat) (recs : List TransferResult) : Prop :=
  k ≤ q.length ∧ recs.length = k ∧
    ∀ i, i < k → recs[i]?.map (fun t => t.tokenId) = some q[i]?

instance (q : List Nat) (k : Nat) (recs : List TransferResult) :
    Decidable (InvOn q k recs) := by
  unfold InvOn; infer_instance

/-- The cursor/records invariant of the spec, read off a hook state. -/
def Inv (s : HookState) : Prop :=
  InvOn s.queue s.currentIndex s.completedTransfers

instance (s : HookState) : Decidable (Inv s) := by
  unfold Inv; infer_instance

/-- One happy-path round per hash: the scheduler dispatches, the signer
yields the handle, and the hash-arrival effect runs. -/
def runRounds (hasClient : Bool) (hs : List String) (s : HookState) : HookState :=
  match hs with
  | [] => s
  | h :: t =>
      runRounds hasClient t
        (step (.hashArrive hasClient) (step (.signerIssue h) (step .execute s)))

/-- The preconditions of the submission operation, as the spec lists them:
an active session, the cursor inside the queue, the guard token not already
equal to the cursor, and no submission in flight. -/
def canExecute (s : HookState) : Prop :=
  s.transferParams ≠ none ∧ s.currentIndex < s.queue.length ∧
    s.lastExecutedIndex ≠ (s.currentIndex : Int) ∧ s.isExecuting = false

instance (s : HookState) : Decidable (canExecute s) := by
  unfold canExecute; infer_instance

/-- Reachability by event steps in which skip only ever fires while the
cursor is still inside the queue. -/
inductive SafeReach : HookState → HookState → Prop where
  | refl (s : HookState) : SafeReach s s
  | tail (s t : HookState) (e : Ev) : SafeReach s t →
      (e = Ev.skipEv → t.currentIndex < t.queue.length) →
      SafeReach s (step e t)

/-- Modelled from the spec: allSubmitted = currentIndex >= totalCount &&
totalCount > 0 (spec section 4.1), for comparison with the source's
allTransfersSubmitted. -/
def spec_allSubmitted (s : HookState) : Bool :=
  decide (s.currentIndex ≥ totalCount s) && decide (totalCount s > 0)

/-- Modelled from the spec: allConfirmed = records.length == totalCount &&
totalCount > 0 && every record.status != pending (spec section 4.1), for
comparison with the source's allTransfersConfirmed. -/
def spec_allConfirmed (s : HookState) : Bool :=
  decide (s.completedTransfers.length = totalCount s) && decide (totalCount s > 0) &&
    s.completedTransfers.all (fun t => !(t.status == TxStatus.pending))

/-- Modelled from the spec: pendingConfirmations = count(records where
status == pending) (spec section 4.1), for comparison with the source's
pendingConfirmations. -/
def spec_pendingConfirmations (s : HookState) : Nat :=
  s.completedTransfers.countP (fun t => t.status == TxStatus.pending)

/-- A session over the queue [1, 2] in which position 0 yields handle h1,
position 1 is rejected by the signer and skipped, and skip is then invoked
once more: the leftover signer error lets the second skip through. -/
def doubleSkipState : HookState :=
  run [Ev.execute, Ev.signerIssue "h1", Ev.hashArrive true, Ev.execute,
       Ev.signerFail "rejected", Ev.skipEv, Ev.skipEv]
    (startTransfer ⟨"0xc", "0xr", [1, 2]⟩ "0xs" initState)

/-- A record is terminal (success or failed) exactly when it is not pending. -/
lemma status_terminal_eq (t : TransferResult) :
    (t.status == TxStatus.success || t.status == TxStatus.failed) =
      !(t.status == TxStatus.pending) := by
  cases t.status <;> rfl

/-- Claim C8: the read-only derived views equal their defining expressions in
every state: allSubmitted = (currentIndex >= totalCount && totalCount > 0),
allConfirmed = (records.length == totalCount && totalCount > 0 && every
record's status is not pending), isComplete = allConfirmed, and
pendingConfirmations = the number of pending records; all four are total
functions of the state, so computing them never fails. -/
theorem derived_views_correct (s : HookState) :
    allTransfersSubmitted s = spec_allSubmitted s ∧
    allTransfersConfirmed s = spec_allConfirmed s ∧
    isComplete s = spec_allConfirmed s ∧
    pendingConfirmations s = spec_pendingConfirmations s := by
  have hf : (fun (t : TransferResult) =>
        t.status == TxStatus.success || t.status == TxStatus.failed) =
      (fun t => !(t.status == TxStatus.pending)) :=
    funext fun t => status_terminal_eq t
  refine ⟨rfl, ?_, ?_, ?_⟩
  · simp only [allTransfersConfirmed, spec_allConfirmed, hf]
  · simp only [isComplete, allTransfersConfirmed, spec_allConfirmed, hf]
  · simp only [pendingConfirmations, spec_pendingConfirmations,
      List.countP_eq_length_filter]

/-- Claim C9: reset from any state restores the initial state (queue empty,
cursor 0, records empty, session params cleared, processed handles empty,
guard token and in-flight flag cleared, signer idle), and a startTransfer
after reset behaves exactly like a startTransfer on a fresh instance. -/
theorem reset_restores_initial :
    (∀ s : HookState, reset s = initState) ∧
    (∀ (s : HookState) (p : ERC721MultiTransferParams) (f : String),
        startTransfer p f (reset s) = startTransfer p f initState) := by
  exact ⟨fun _ => rfl, fun _ _ _ => rfl⟩

/-- Claim C10: startTransfer with an empty tokenIds list is a complete no-op
(the prior state is returned unchanged), and moreover no state whose queue
is empty is ever complete, so a batch run cannot arise from an empty input. -/
theorem startTransfer_empty_noop :
    (∀ (s : HookState) (p : ERC721MultiTransferParams) (f : String),
        p.tokenIds = [] → startTransfer p f s = s) ∧
    (∀ s : HookState, s.queue = [] → isComplete s = false) := by
  constructor
  · intro s p f hp
    simp [startTransfer, hp]
  · intro s hq
    simp [isComplete, allTransfersConfirmed, totalCount, hq]

/-- Witness for startTransfer_empty_noop at a concrete empty parameter list
and at the initial state. -/
theorem startTransfer_empty_noop_witness :
    startTransfer ⟨"0xc", "0xr", []⟩ "0xs" initState = initState ∧
    isComplete initState = false :=
  ⟨startTransfer_empty_noop.1 initState ⟨"0xc", "0xr", []⟩ "0xs" rfl,
   startTransfer_empty_noop.2 initState rfl⟩

/-- Claim C7: invoking the submission operation with any precondition
violated (no session, cursor past the queue, guard token already equal to
the cursor, or a submission in flight) is a no-op issuing no signing
request; and re-invoking it right after a run is always a no-op, so at most
one signing request is dispatched per queue position under re-entrancy. -/
theorem submit_guarded :
    (∀ s : HookState, ¬ canExecute s → executeCurrentTransfer s = (s, none)) ∧
    (∀ s : HookState,
        executeCurrentTransfer (executeCurrentTransfer s).1 =
          ((executeCurrentTransfer s).1, none)) := by
  constructor
  · intro s hc
    rcases hp : s.transferParams with _ | p
    · simp [executeCurrentTransfer, hp]
    · rw [canExecute, hp] at hc
      push_neg at hc
      by_cases h1 : s.currentIndex ≥ s.queue.length
      · simp [executeCurrentTransfer, hp, h1]
      · by_cases h2 : s.lastExecutedIndex = (s.currentIndex : Int)
        · simp [executeCurrentTransfer, hp, h2]
        · have h3 : s.isExecuting = true := by
            have hx := hc (by simp) (Nat.lt_of_not_le h1) h2
            simpa using hx
          simp [executeCurrentTransfer, hp, h1, h2, h3]
  · intro s
    rcases hp : s.transferParams with _ | p
    · simp [executeCurrentTransfer, hp]
    · by_cases h1 : s.currentIndex ≥ s.queue.length
      · simp [executeCurrentTransfer, hp, h1]
      · by_cases h2 : s.lastExecutedIndex = (s.currentIndex : Int)
        · simp [executeCurrentTransfer, hp, h1, h2]
        · by_cases h3 : s.isExecuting
          · simp [executeCurrentTransfer, hp, h1, h2, h3]
          · simp [executeCurrentTransfer, hp, h1, h2, h3]

/-- Witness for submit_guarded: on the fresh instance no session exists, so
the submission operation leaves the state alone and issues nothing. -/
theorem submit_guarded_witness :
    ¬ canExecute initState ∧ executeCurrentTransfer initState = (initState, none) :=
  ⟨by decide, submit_guarded.1 initState (by decide)⟩

/-- Claim C6: the hash-arrival effect consults the processed-handles set
first, so a re-delivery of an already handled handle is a no-op (same state,
no watch started, no record, no cursor advance), and running the effect
twice in a row never records, watches or advances twice. -/
theorem watch_once :
    (∀ (c : Bool) (s : HookState) (h : String),
        s.write.data = some h → h ∈ s.processedHashes →
        onHashEffect c s = (s, [])) ∧
    (∀ (c : Bool) (s : HookState),
        onHashEffect c (onHashEffect c s).1 = ((onHashEffect c s).1, [])) := by
  constructor
  · intro c s h hd hmem
    by_cases ht : s.isTransferring
    · by_cases hi : s.currentIndex ≥ s.queue.length
      · simp [onHashEffect, hd, ht, hi]
      · simp [onHashEffect, hd, ht, hi, hmem]
    · simp [onHashEffect, hd, ht]
  · intro c s
    rcases hd : s.write.data with _ | h
    · simp [onHashEffect, hd]
    · by_cases ht : s.isTransferring
      · by_cases hi : s.currentIndex ≥ s.queue.length
        · simp [onHashEffect, hd, ht, hi]
        · by_cases hmem : h ∈ s.processedHashes
          · simp [onHashEffect, hd, ht, hi, hmem]
          · by_cases hnext : s.currentIndex + 1 < s.queue.length
            · simp [onHashEffect, hd, ht, hi, hmem, hnext, idleWrite]
            · simp [onHashEffect, hd, ht, hi, hmem, hnext]
      · simp [onHashEffect, hd, ht]

/-- Witness for watch_once: a state holding an already processed handle h1
is left unchanged by a re-delivery of h1. -/
theorem watch_once_witness :
    ({ initState with
        queue := [7]
        isTransferring := true
        processedHashes := ["h1"]
        write := ⟨some "h1", false, none⟩ } : HookState).write.data = some "h1" ∧
    onHashEffect true
        { initState with
            queue := [7]
            isTransferring := true
            processedHashes := ["h1"]
            write := ⟨some "h1", false, none⟩ } =
      ({ initState with
          queue := [7]
          isTransferring := true
          processedHashes := ["h1"]
          write := ⟨some "h1", false, none⟩ }, []) :=
  ⟨rfl, watch_once.1 true _ "h1" rfl (by decide)⟩

/-- Claim C1: in an active session (params set, transferring, cursor inside
the queue), the arrival of a new, previously unseen handle appends exactly
one pending record for queue[currentIndex] carrying that handle, clears the
in-flight flag, starts exactly one confirmation watch for the handle, and
advances the cursor by exactly one, within this single step and therefore
without waiting for any confirmation. -/
theorem hash_arrival_advances (s : HookState) (h : String) (pr : SessionParams)
    (_hp : s.transferParams = some pr)
    (ht : s.isTransferring = true)
    (hi : s.currentIndex < s.queue.length)
    (hd : s.write.data = some h)
    (hn : h ∉ s.processedHashes) :
    (onHashEffect true s).1.completedTransfers =
        s.completedTransfers ++
          [⟨s.queue[s.currentIndex]?, h, TxStatus.pending⟩] ∧
    (onHashEffect true s).1.isExecuting = false ∧
    (onHashEffect true s).2 = [h] ∧
    (onHashEffect true s).1.currentIndex = s.currentIndex + 1 := by
  have hi' : ¬ s.currentIndex ≥ s.queue.length := Nat.not_le.mpr hi
  simp [onHashEffect, hd, ht, hi', hn]

/-- Witness for hash_arrival_advances on a one-element session receiving the
fresh handle h1. -/
theorem hash_arrival_advances_witness :
    (onHashEffect true
        { initState with
            queue := [7]
            isTransferring := true
            transferParams := some ⟨"0xc", "0xr", "0xs"⟩
            write := ⟨some "h1", true, none⟩ }).1.completedTransfers =
      [⟨some 7, "h1", TxStatus.pending⟩] ∧
    (onHashEffect true
        { initState with
            queue := [7]
            isTransferring := true
            transferParams := some ⟨"0xc", "0xr", "0xs"⟩
            write := ⟨some "h1", true, none⟩ }).2 = ["h1"] := by
  have hh := hash_arrival_advances
    { initState with
        queue := [7]
        isTransferring := true
        transferParams := some ⟨"0xc", "0xr", "0xs"⟩
        write := ⟨some "h1", true, none⟩ }
    "h1" ⟨"0xc", "0xr", "0xs"⟩ rfl rfl (by decide) rfl (by decide)
  exact ⟨by simpa using hh.1, hh.2.2.1⟩

/-- Claim C4: skip while transferring with a signer error outstanding and the
cursor inside the queue appends one failed record for the current position
with the empty sentinel handle "0x", advances the cursor by one, releases
the guards, and clears the signer error exactly when work remains; with no
outstanding error or no active session, skip changes nothing. -/
theorem skip_behavior :
    (∀ s : HookState,
        ¬ (s.isTransferring = true ∧ s.write.error ≠ none) → skip s = s) ∧
    (∀ (s : HookState) (err : String),
        s.isTransferring = true → s.write.error = some err →
        s.currentIndex < s.queue.length →
        (skip s).completedTransfers =
            s.completedTransfers ++
              [⟨s.queue[s.currentIndex]?, "0x", TxStatus.failed⟩] ∧
        (skip s).currentIndex = s.currentIndex + 1 ∧
        ((skip s).write.error = none ↔ s.currentIndex + 1 < s.queue.length) ∧
        (skip s).lastExecutedIndex = -1 ∧
        (skip s).isExecuting = false) := by
  constructor
  · intro s hc
    by_cases ht : s.isTransferring
    · rcases he : s.write.error with _ | err
      · simp [skip, ht, he]
      · exact absurd ⟨ht, by simp [he]⟩ hc
    · simp [skip, ht]
  · intro s err ht he hi
    by_cases hnext : s.currentIndex + 1 < s.queue.length
    · simp [skip, ht, he, hnext, idleWrite]
    · simp [skip, ht, he, hnext]

/-- Witness for skip_behavior: no-op on the fresh instance, and on a
two-element session with a rejection at position 0 skip records the failure
and clears the signer error because work remains. -/
theorem skip_behavior_witness :
    skip initState = initState ∧
    ((skip
        { initState with
            queue := [1, 2]
            isTransferring := true
            write := ⟨none, false, some "rejected"⟩ }).completedTransfers =
        [⟨some 1, "0x", TxStatus.failed⟩] ∧
      (skip
        { initState with
            queue := [1, 2]
            isTransferring := true
            write := ⟨none, false, some "rejected"⟩ }).write.error = none) := by
  have h2 := skip_behavior.2
    { initState with
        queue := [1, 2]
        isTransferring := true
        write := ⟨none, false, some "rejected"⟩ }
    "rejected" rfl rfl (by decide)
  exact ⟨skip_behavior.1 initState (by decide),
    by simpa using h2.1, h2.2.2.1.mpr (by decide)⟩

/-- Claim C5: retry while transferring with a signer error outstanding in an
active session leaves the cursor where it is, appends no record, ends with
the signer error cleared, and re-issues the signing request for the same
position; with no outstanding error, retry changes nothing. -/
theorem retry_behavior :
    (∀ s : HookState,
        ¬ (s.isTransferring = true ∧ s.write.error ≠ none) → retry s = (s, none)) ∧
    (∀ (s : HookState) (err : String) (pr : SessionParams),
        s.isTransferring = true → s.write.error = some err →
        s.transferParams = some pr → s.currentIndex < s.queue.length →
        (retry s).1.currentIndex = s.currentIndex ∧
        (retry s).1.completedTransfers = s.completedTransfers ∧
        (retry s).1.write.error = none ∧
        (retry s).2 =
          some ⟨pr.contractAddress, pr.fromAddr, pr.toAddr,
                s.queue[s.currentIndex]?⟩) := by
  constructor
  · intro s hc
    by_cases ht : s.isTransferring
    · rcases he : s.write.error with _ | err
      · simp [retry, ht, he]
      · exact absurd ⟨ht, by simp [he]⟩ hc
    · simp [retry, ht]
  · intro s err pr ht he hp hi
    have hi' : ¬ s.currentIndex ≥ s.queue.length := Nat.not_le.mpr hi
    have hne : (-1 : Int) ≠ (s.currentIndex : Int) := by omega
    simp [retry, ht, he, executeCurrentTransfer, hp, hi', hne, idleWrite]

/-- Witness for retry_behavior: no-op on the fresh instance, and on a
one-element session with a rejection retry re-issues the request for token 7
without moving the cursor. -/
theorem retry_behavior_witness :
    retry initState = (initState, none) ∧
    (retry
        { initState with
            queue := [7]
            isTransferring := true
            transferParams := some ⟨"0xc", "0xr", "0xs"⟩
            write := ⟨none, false, some "rejected"⟩ }).1.currentIndex = 0 ∧
    (retry
        { initState with
            queue := [7]
            isTransferring := true
            transferParams := some ⟨"0xc", "0xr", "0xs"⟩
            write := ⟨none, false, some "rejected"⟩ }).2 =
      some ⟨"0xc", "0xs", "0xr", some 7⟩ := by
  have h2 := retry_behavior.2
    { initState with
        queue := [7]
        isTransferring := true
        transferParams := some ⟨"0xc", "0xr", "0xs"⟩
        write := ⟨none, false, some "rejected"⟩ }
    "rejected" ⟨"0xc", "0xr", "0xs"⟩ rfl rfl rfl (by decide)
  exact ⟨retry_behavior.1 initState (by decide), h2.1, by simpa using h2.2.2.2⟩

/-- The confirmation callback leaves the tokenId and hash of every record
unchanged. -/
lemma applyConfirmation_preserves_keys (h : String) (ok : Bool)
    (t : TransferResult) :
    ((if t.hash = h then
        { t with status := if ok then TxStatus.success else TxStatus.failed }
      else t) : TransferResult).tokenId = t.tokenId := by
  split <;> rfl

/-- Counterexample to claim C2 as stated: a failure callback for handle h1
applied to a record whose status is already the terminal success does not
leave the record unchanged; it overwrites the status with failed. -/
theorem confirm_overwrite_cex :
    applyConfirmation "h1" false [⟨some 1, "h1", TxStatus.success⟩] ≠
      [⟨some 1, "h1", TxStatus.success⟩] := by
  decide

/-- Claim C2 amended: the confirmation callback is last-write-wins, not
idempotent: it rewrites the status of every record whose hash matches the
callback's handle to the callback's outcome, even when the record already
holds a terminal status, leaves records with other hashes unchanged, and
never changes a record's tokenId, hash, or the number of records. -/
theorem confirm_last_write_wins (h : String) (ok : Bool)
    (records : List TransferResult) (i : Nat) (t : TransferResult)
    (hg : records[i]? = some t) :
    (applyConfirmation h ok records).length = records.length ∧
    (applyConfirmation h ok records)[i]? =
      some (if t.hash = h then
              ⟨t.tokenId, t.hash, if ok then TxStatus.success else TxStatus.failed⟩
            else t) := by
  refine ⟨by simp [applyConfirmation], ?_⟩
  obtain ⟨tk, hs, st⟩ := t
  simp [applyConfirmation, List.getElem?_map, hg]

/-- Witness for confirm_last_write_wins: a late success callback for h1
overwrites the already failed status of the matching record while leaving
the record for h2 alone. -/
theorem confirm_last_write_wins_witness :
    (applyConfirmation "h1" true
        [⟨some 1, "h1", TxStatus.failed⟩, ⟨some 2, "h2", TxStatus.pending⟩]).length = 2 ∧
    (applyConfirmation "h1" true
        [⟨some 1, "h1", TxStatus.failed⟩, ⟨some 2, "h2", TxStatus.pending⟩])[0]? =
      some ⟨some 1, "h1", TxStatus.success⟩ ∧
    (applyConfirmation "h1" true
        [⟨some 1, "h1", TxStatus.failed⟩, ⟨some 2, "h2", TxStatus.pending⟩])[1]? =
      some ⟨some 2, "h2", TxStatus.pending⟩ := by
  have ha := confirm_last_write_wins "h1" true
    [⟨some 1, "h1", TxStatus.failed⟩, ⟨some 2, "h2", TxStatus.pending⟩]
    0 ⟨some 1, "h1", TxStatus.failed⟩ rfl
  have hb := confirm_last_write_wins "h1" true
    [⟨some 1, "h1", TxStatus.failed⟩, ⟨some 2, "h2", TxStatus.pending⟩]
    1 ⟨some 2, "h2", TxStatus.pending⟩ rfl
  exact ⟨ha.1, by simpa using ha.2, by simpa using hb.2⟩

/-- The submission operation never changes the queue, the cursor or the
records. -/
lemma executeCurrentTransfer_frame (s : HookState) :
    (executeCurrentTransfer s).1.queue = s.queue ∧
    (executeCurrentTransfer s).1.currentIndex = s.currentIndex ∧
    (executeCurrentTransfer s).1.completedTransfers = s.completedTransfers := by
  rcases hp : s.transferParams with _ | p
  · simp [executeCurrentTransfer, hp]
  · by_cases h1 : s.currentIndex ≥ s.queue.length
    · simp [executeCurrentTransfer, hp, h1]
    · by_cases h2 : s.lastExecutedIndex = (s.currentIndex : Int)
      · simp [executeCurrentTransfer, hp, h1, h2]
      · by_cases h3 : s.isExecuting <;>
          simp [executeCurrentTransfer, hp, h1, h2, h3]

/-- retry never changes the queue, the cursor or the records. -/
lemma retry_frame (s : HookState) :
    (retry s).1.queue = s.queue ∧
    (retry s).1.currentIndex = s.currentIndex ∧
    (retry s).1.completedTransfers = s.completedTransfers := by
  by_cases ht : s.isTransferring
  · rcases he : s.write.error with _ | err
    · simp [retry, ht, he]
    · have hf := executeCurrentTransfer_frame
        { s with write := idleWrite, isExecuting := false, lastExecutedIndex := -1 }
      simpa [retry, ht, he] using hf
  · simp [retry, ht]

/-- Appending a record carrying queue[k] while advancing the cursor from an
in-range position preserves the cursor/records contract. -/
lemma invOn_append (q : List Nat) (k : Nat) (recs : List TransferResult)
    (r : TransferResult) (hInv : InvOn q k recs) (hk : k < q.length)
    (htk : r.tokenId = q[k]?) : InvOn q (k + 1) (recs ++ [r]) := by
  obtain ⟨hle, hlen, hord⟩ := hInv
  refine ⟨hk, by simp [hlen], ?_⟩
  intro i hi
  rcases Nat.lt_or_ge i k with hik | hik
  · rw [List.getElem?_append_left (by omega)]
    exact hord i hik
  · have hik' : i = k := by omega
    subst hik'
    have hcat : (recs ++ [r])[i]? = some r := by
      rw [← hlen]; exact List.getElem?_concat_length recs r
    rw [hcat]
    simp [htk]

/-- A confirmation callback preserves the cursor/records contract: it keeps
the number of records and every record's tokenId. -/
lemma invOn_confirm (q : List Nat) (k : Nat) (recs : List TransferResult)
    (h : String) (ok : Bool) (hInv : InvOn q k recs) :
    InvOn q k (applyConfirmation h ok recs) := by
  obtain ⟨hle, hlen, hord⟩ := hInv
  refine ⟨hle, by simpa [applyConfirmation] using hlen, ?_⟩
  intro i hi
  have hmem := hord i hi
  rcases hg : recs[i]? with _ | t
  · rw [hg] at hmem; simp at hmem
  · rw [hg] at hmem
    simpa [applyConfirmation, List.getElem?_map, hg,
      applyConfirmation_preserves_keys h ok t] using hmem

/-- One event preserves the cursor/records invariant, provided skip only
fires while the cursor is inside the queue. -/
lemma inv_step (e : Ev) (s : HookState) (hInv : Inv s)
    (hskip : e = Ev.skipEv → s.currentIndex < s.queue.length) :
    Inv (step e s) := by
  have hframe : ∀ u : HookState,
      u.queue = s.queue → u.currentIndex = s.currentIndex →
      u.completedTransfers = s.completedTransfers → Inv u := by
    intro u h1 h2 h3
    obtain ⟨hle, hlen, hord⟩ := hInv
    refine ⟨?_, ?_, ?_⟩
    · rw [h1, h2]; exact hle
    · rw [h2, h3]; exact hlen
    · intro i hi
      rw [h2] at hi
      rw [h1, h3]
      exact hord i hi
  obtain ⟨hle, hlen, hord⟩ := hInv
  cases e with
  | execute =>
      obtain ⟨hq, hi, hr⟩ := executeCurrentTransfer_frame s
      exact hframe (executeCurrentTransfer s).1 hq hi hr
  | signerIssue h =>
      show Inv (if s.write.isPending then
        { s with write := ⟨some h, false, none⟩ } else s)
      split
      · exact hframe _ rfl rfl rfl
      · exact hframe s rfl rfl rfl
  | signerFail err =>
      show Inv (if s.write.isPending then
        { s with write := ⟨none, false, some err⟩ } else s)
      split
      · exact hframe _ rfl rfl rfl
      · exact hframe s rfl rfl rfl
  | hashArrive c =>
      show Inv (onHashEffect c s).1
      rcases hd : s.write.data with _ | h
      · rw [onHashEffect, hd]
        exact hframe s rfl rfl rfl
      · by_cases ht : s.isTransferring
        · by_cases hi : s.currentIndex ≥ s.queue.length
          · have : (onHashEffect c s).1 = s := by
              simp [onHashEffect, hd, ht, hi]
            rw [this]
            exact hframe s rfl rfl rfl
          · by_cases hmem : h ∈ s.processedHashes
            · have : (onHashEffect c s).1 = s := by
                simp [onHashEffect, hd, ht, hi, hmem]
              rw [this]
              exact hframe s rfl rfl rfl
            · have hk : s.currentIndex < s.queue.length := Nat.lt_of_not_le hi
              have happ := invOn_append s.queue s.currentIndex
                s.completedTransfers
                ⟨s.queue[s.currentIndex]?, h, TxStatus.pending⟩
                ⟨hle, hlen, hord⟩ hk rfl
              have hred : (onHashEffect c s).1 =
                  { s with
                      processedHashes := s.processedHashes ++ [h]
                      isExecuting := false
                      completedTransfers := s.completedTransfers ++
                        [⟨s.queue[s.currentIndex]?, h, TxStatus.pending⟩]
                      currentIndex := s.currentIndex + 1
                      write := if s.currentIndex + 1 < s.queue.length then
                          idleWrite else s.write } := by
                simp [onHashEffect, hd, ht, hi, hmem]
              rw [hred]
              exact happ
        · have : (onHashEffect c s).1 = s := by
            simp [onHashEffect, hd, ht]
          rw [this]
          exact hframe s rfl rfl rfl
  | skipEv =>
      show Inv (skip s)
      by_cases ht : s.isTransferring
      · rcases he : s.write.error with _ | err
        · have : skip s = s := by simp [skip, ht, he]
          rw [this]
          exact hframe s rfl rfl rfl
        · have hk : s.currentIndex < s.queue.length := hskip rfl
          have happ := invOn_append s.queue s.currentIndex s.completedTransfers
            ⟨s.queue[s.currentIndex]?, "0x", TxStatus.failed⟩
            ⟨hle, hlen, hord⟩ hk rfl
          by_cases hnext : s.currentIndex + 1 < s.queue.length
          · have : skip s =
                { s with
                    completedTransfers := s.completedTransfers ++
                      [⟨s.queue[s.currentIndex]?, "0x", TxStatus.failed⟩]
                    isExecuting := false
                    lastExecutedIndex := -1
                    currentIndex := s.currentIndex + 1
                    write := idleWrite } := by
              simp [skip, ht, he, hnext]
            rw [this]
            exact happ
          · have : skip s =
                { s with
                    completedTransfers := s.completedTransfers ++
                      [⟨s.queue[s.currentIndex]?, "0x", TxStatus.failed⟩]
                    isExecuting := false
                    lastExecutedIndex := -1
                    currentIndex := s.currentIndex + 1 } := by
              simp [skip, ht, he, hnext]
            rw [this]
            exact happ
      · have : skip s = s := by simp [skip, ht]
        rw [this]
        exact hframe s rfl rfl rfl
  | retryEv =>
      obtain ⟨hq, hi, hr⟩ := retry_frame s
      exact hframe (retry s).1 hq hi hr
  | confirm h ok =>
      exact invOn_confirm s.queue s.currentIndex s.completedTransfers h ok
        ⟨hle, hlen, hord⟩
  | doneCheck =>
      show Inv (onDoneEffect s)
      rw [onDoneEffect]
      split
      · exact hframe _ rfl rfl rfl
      · exact hframe s rfl rfl rfl

/-- One happy round (dispatch, handle issued, hash-arrival effect) from a
ready position: the full resulting state, in closed form. -/
lemma round_step (c : Bool) (h : String) (s : HookState) (pr : SessionParams)
    (hp : s.transferParams = some pr)
    (ht : s.isTransferring = true)
    (hi : s.currentIndex < s.queue.length)
    (hl : s.lastExecutedIndex ≠ (s.currentIndex : Int))
    (he : s.isExecuting = false)
    (hn : h ∉ s.processedHashes) :
    step (.hashArrive c) (step (.signerIssue h) (step .execute s)) =
      { s with
          processedHashes := s.processedHashes ++ [h]
          completedTransfers := s.completedTransfers ++
            [⟨s.queue[s.currentIndex]?, h, TxStatus.pending⟩]
          currentIndex := s.currentIndex + 1
          lastExecutedIndex := (s.currentIndex : Int)
          isExecuting := false
          write := if s.currentIndex + 1 < s.queue.length then idleWrite
                   else ⟨some h, false, none⟩ } := by
  have hi' : ¬ s.currentIndex ≥ s.queue.length := Nat.not_le.mpr hi
  simp [step, executeCurrentTransfer, onHashEffect, hp, hi', hl, he, ht, hn]

/-- Driving the happy path: from a ready state whose processed-handle set is
prev, feeding the fresh, pairwise distinct handles hs (one per remaining
queue position) lands the cursor at the end of the queue with the
cursor/records contract intact. -/
lemma runRounds_spec (c : Bool) :
    ∀ (hs prev : List String) (s : HookState) (pr : SessionParams),
      s.isTransferring = true →
      s.transferParams = some pr →
      s.processedHashes = prev →
      s.currentIndex = prev.length →
      s.lastExecutedIndex = (prev.length : Int) - 1 →
      s.isExecuting = false →
      Inv s →
      prev.length + hs.length = s.queue.length →
      (∀ x ∈ hs, x ∉ prev) →
      hs.Nodup →
      (runRounds c hs s).queue = s.queue ∧
      (runRounds c hs s).currentIndex = s.queue.length ∧
      Inv (runRounds c hs s) := by
  intro hs
  induction hs with
  | nil =>
      intro prev s pr ht hp hph hci hl he hInv hcount hfresh hnd
      refine ⟨rfl, ?_, hInv⟩
      show s.currentIndex = s.queue.length
      rw [hci]
      simpa using hcount
  | cons h t ih =>
      intro prev s pr ht hp hph hci hl he hInv hcount hfresh hnd
      have hlen : prev.length + t.length + 1 = s.queue.length := by
        simp only [List.length_cons] at hcount
        omega
      have hi : s.currentIndex < s.queue.length := by rw [hci]; omega
      have hl' : s.lastExecutedIndex ≠ (s.currentIndex : Int) := by
        rw [hl, hci]; omega
      have hn : h ∉ s.processedHashes := by
        rw [hph]; exact hfresh h (by simp)
      rw [runRounds, round_step c h s pr hp ht hi hl' he hn]
      have happ := invOn_append s.queue s.currentIndex s.completedTransfers
        ⟨s.queue[s.currentIndex]?, h, TxStatus.pending⟩ hInv hi rfl
      have hres := ih (prev ++ [h])
        { s with
            processedHashes := s.processedHashes ++ [h]
            completedTransfers := s.completedTransfers ++
              [⟨s.queue[s.currentIndex]?, h, TxStatus.pending⟩]
            currentIndex := s.currentIndex + 1
            lastExecutedIndex := (s.currentIndex : Int)
            isExecuting := false
            write := if s.currentIndex + 1 < s.queue.length then idleWrite
                     else ⟨some h, false, none⟩ }
        pr ht hp
        (by show s.processedHashes ++ [h] = prev ++ [h]; rw [hph])
        (by
          show s.currentIndex + 1 = (prev ++ [h]).length
          rw [hci]
          simp)
        (by
          show (s.currentIndex : Int) = ((prev ++ [h]).length : Int) - 1
          rw [hci]
          simp only [List.length_append, List.length_singleton]
          omega)
        rfl happ
        (by
          show (prev ++ [h]).length + t.length = s.queue.length
          simp only [List.length_append, List.length_singleton]
          omega)
        (by
          intro x hx
          simp only [List.mem_append, List.mem_singleton]
          rintro (hxp | hxh)
          · exact hfresh x (List.mem_cons_of_mem h hx) hxp
          · subst hxh
            exact (List.nodup_cons.mp hnd).1 hx)
        (List.nodup_cons.mp hnd).2
      simpa using hres

/-- Claim C3 amended: from startTransfer on a nonempty queue, the invariant
0 <= currentIndex <= queue.length together with one record per passed
position in queue order is preserved by every event, provided skip only
fires while the cursor is inside the queue (the unrestricted claim is
refuted by batch_cursor_invariant_cex: a second skip at the end of the
queue pushes the cursor past it); and after N fresh signer submissions on a
queue of length N >= 1 the cursor equals N with N records in queue order. -/
theorem batch_cursor_invariant :
    (∀ (p : ERC721MultiTransferParams) (f : String) (s : HookState),
        p.tokenIds ≠ [] → Inv (startTransfer p f s)) ∧
    (∀ s t : HookState, Inv s → SafeReach s t → Inv t) ∧
    (∀ (c : Bool) (q : List Nat) (ca r f : String) (hs : List String),
        q ≠ [] → hs.length = q.length → hs.Nodup →
        (runRounds c hs (startTransfer ⟨ca, r, q⟩ f initState)).currentIndex =
            q.length ∧
        (runRounds c hs
            (startTransfer ⟨ca, r, q⟩ f initState)).completedTransfers.length =
            q.length ∧
        ∀ i, i < q.length →
          (runRounds c hs
              (startTransfer ⟨ca, r, q⟩ f initState)).completedTransfers[i]?.map
              (fun t => t.tokenId) = some q[i]?) := by
  have hstart : ∀ (p : ERC721MultiTransferParams) (f : String) (s : HookState),
      p.tokenIds ≠ [] → Inv (startTransfer p f s) := by
    intro p f s hne
    have hz : ¬ p.tokenIds.length = 0 := by
      simpa [List.length_eq_zero] using hne
    simp only [startTransfer, hz, if_false]
    exact ⟨Nat.zero_le _, rfl, fun i hi => absurd hi (by simp)⟩
  refine ⟨hstart, ?_, ?_⟩
  · intro s t hInv hreach
    induction hreach with
    | refl => exact hInv
    | tail u e hru hsk ih => exact inv_step e u ih hsk
  · intro c q ca r f hs hq hcount hnd
    have hz : ¬ q.length = 0 := by simpa [List.length_eq_zero] using hq
    have hrun := runRounds_spec c hs [] (startTransfer ⟨ca, r, q⟩ f initState)
      ⟨ca, r, f⟩
      (by simp [startTransfer, hz]) (by simp [startTransfer, hz])
      (by simp [startTransfer, hz]) (by simp [startTransfer, hz])
      (by simp [startTransfer, hz]) (by simp [startTransfer, hz])
      (hstart ⟨ca, r, q⟩ f initState hq)
      (by simp [startTransfer, hz, hcount])
      (by simp) hnd
    have hqueue : (startTransfer ⟨ca, r, q⟩ f initState).queue = q := by
      simp [startTransfer, hz]
    have hrq := hrun.1
    have hrc := hrun.2.1
    obtain ⟨hrle, hrlen, hrord⟩ := hrun.2.2
    rw [hqueue] at hrc
    rw [hrq, hqueue] at hrord
    refine ⟨hrc, ?_, ?_⟩
    · rw [hrlen, hrc]
    · intro i hi
      exact hrord i (by rw [hrc]; exact hi)

/-- Counterexample to claim C3 as stated: on the queue [1, 2], after the
first position yields handle h1, the signer rejects position 1 and skip is
invoked twice, the leftover signer error lets the second skip through and
the cursor reaches 3 > queue.length = 2, violating the invariant. -/
theorem batch_cursor_invariant_cex :
    ¬ Inv doubleSkipState ∧ doubleSkipState.currentIndex = 3 ∧
      doubleSkipState.queue.length = 2 := by
  decide

/-- Witness for batch_cursor_invariant: the invariant after starting on the
queue [5], after one in-range skip step, and the cursor landing on 2 after
the two-element happy run. -/
theorem batch_cursor_invariant_witness :
    Inv (startTransfer ⟨"0xc", "0xr", [5]⟩ "0xs" initState) ∧
    Inv (step Ev.skipEv
        { initState with
            queue := [1, 2]
            isTransferring := true
            currentIndex := 1
            completedTransfers := [⟨some 1, "h1", TxStatus.pending⟩]
            write := ⟨none, false, some "rejected"⟩ }) ∧
    (runRounds true ["h1", "h2"]
        (startTransfer ⟨"0xc", "0xr", [5, 6]⟩ "0xs" initState)).currentIndex = 2 :=
  ⟨batch_cursor_invariant.1 ⟨"0xc", "0xr", [5]⟩ "0xs" initState (by decide),
   batch_cursor_invariant.2.1
     { initState with
         queue := [1, 2]
         isTransferring := true
         currentIndex := 1
         completedTransfers := [⟨some 1, "h1", TxStatus.pending⟩]
         write := ⟨none, false, some "rejected"⟩ }
     (step Ev.skipEv
       { initState with
           queue := [1, 2]
           isTransferring := true
           currentIndex := 1
           completedTransfers := [⟨some 1, "h1", TxStatus.pending⟩]
           write := ⟨none, false, some "rejected"⟩ })
     (by decide)
     (SafeReach.tail _ _ Ev.skipEv (SafeReach.refl _) (fun _ => by decide)),
   (batch_cursor_invariant.2.2 true [5, 6] "0xc" "0xr" "0xs" ["h1", "h2"]
     (by decide) (by decide) (by decide)).1⟩

end NftTransfer
